import Mathlib

/-!
Verification of `src/fb_parser.py` (sergeygrin4/fb-job-parser-service) against its
natural-language specification.

The Python source is shallowly embedded: pure helpers become Lean functions, the
network is replaced by explicit oracles (`fetch`, `deliver`, response values), and
the process-global mutable set `_seen_hashes` becomes explicit state passed through
the per-item / per-cycle step functions.  Python truthiness of the JSON-derived
values that the code actually inspects is modelled by a small `PyVal` type and by
`Option String` where the code only ever sees strings or `None`.
-/

namespace FbParser

/-- Python truthiness for the JSON-derived scalar values that
`fb_parser.py` inspects (the `enabled` field of a group record). -/
inductive PyVal
  | pNone
  | pBool (b : Bool)
  | pStr (s : String)
  | pInt (n : Int)
deriving DecidableEq

/-- Python truthiness: `None`, `False`, `0` and `""` are falsy. -/
def PyVal.truthy : PyVal → Bool
  | .pNone => false
  | .pBool b => b
  | .pStr s => !(s == "")
  | .pInt n => !(n == 0)

/-- Python `a or b` restricted to optional strings: `None` and `""` are falsy
(the shape of every `x or y` chain over strings in `fb_parser.py`). -/
def pyOrS (a : Option String) (b : String) : String :=
  match a with
  | some s => if s == "" then b else s
  | none => b

/-- Python `str.lower`, modelled per character (`fb_parser.py` applies it to
ASCII type tags and keywords). -/
def lowerStr (s : String) : String := ⟨s.data.map Char.toLower⟩

/-- Python `str.strip()`: whitespace removed from both ends. -/
def stripChars (s : String) : String :=
  ⟨((s.data.dropWhile Char.isWhitespace).reverse.dropWhile Char.isWhitespace).reverse⟩

/-- Python `str.lstrip('@')`: leading `'@'` characters removed
(used on bare group ids in `get_fb_groups`). -/
def lstripAts (s : String) : String := ⟨s.data.dropWhile (· == '@')⟩

/-- `needle` is a prefix of `hay` (Boolean, on character lists). -/
def isPrefixL : List Char → List Char → Bool
  | [], _ => true
  | _ :: _, [] => false
  | a :: as, b :: bs => a == b && isPrefixL as bs

/-- `needle` occurs somewhere inside `hay` (Python's `in` on strings). -/
def containsSubL (needle : List Char) : List Char → Bool
  | [] => needle.isEmpty
  | c :: t => isPrefixL needle (c :: t) || containsSubL needle t

/-- Modelled from the spec: the body of `_post_hash` is missing from
`src/fb_parser.py` (only its `def _post_hash(text, url)` signature line survives a
corrupted hunk at lines 196-206).  Per the spec (§3 Fingerprint, §9) the
fingerprint is a deterministic digest of the text with the url appended when
present; the unspecified digest is stood in for by a non-cryptographic rolling
hash rendered as a string. -/
def digest (s : String) : String :=
  "fp" ++ toString (s.data.foldl (fun a c => (a * 31 + c.toNat) % (2 ^ 64)) 7)

/-- Modelled from the spec: `_post_hash(text, url)` — digest of the text with the
url substring appended when present (§3 Fingerprint). -/
def post_hash (text : String) (url : Option String) : String :=
  digest (text ++ url.getD "")

/-! ### Timestamps (`is_today`, lines 97-117)

`is_today(created_at)` stringifies its argument, first tries
`datetime.fromisoformat` and compares the parsed calendar date with
`date.today()`, then tries `float(s)` as a Unix epoch (divided by 1000 when
`> 1e12`), mapping it to a UTC calendar date via `utcfromtimestamp`; any falsy
input or unparseable string yields `False`.  Calendar dates are modelled as day
numbers (`Int`, days since the Unix epoch) and the current date as an explicit
`today` parameter.  What Python's two parsers yield for the stringified value is
captured by `ParsedTs`; a falsy `created_at` (absent, `None`, `""`, `0`) is the
`Created.absent` case. -/

/-- Result of Python's parse attempts on `str(created_at)`:
an ISO-8601 date, a float epoch, or neither. -/
inductive ParsedTs
  | isoOk (day : Int)
  | epochNum (q : ℚ)
  | unparsed
deriving DecidableEq

/-- The raw `createdAt` value of an item: falsy (`absent`) or a truthy value
with its string form `s` and what parsing `s` yields. -/
inductive Created
  | absent
  | val (s : String) (p : ParsedTs)
deriving DecidableEq

/-- `str(created_at) if created_at else None` (line 418). -/
def createdOpt : Created → Option String
  | .absent => none
  | .val s _ => some s

/-- Day number (days since the Unix epoch) of an epoch second count,
as computed by `datetime.utcfromtimestamp(ts).date()`. -/
def utcDay (q : ℚ) : Int := ⌊q / 86400⌋

/-- Smallest epoch second count `datetime.utcfromtimestamp` accepts
(0001-01-01T00:00:00). -/
def minEpoch : ℚ := -62135596800

/-- Strict upper bound on the epoch second counts `datetime.utcfromtimestamp`
accepts (10000-01-01T00:00:00). -/
def maxEpochB : ℚ := 253402300800

/-- `is_today` (lines 97-117): falsy input is `False`; an ISO-parseable string
compares its date with today; otherwise a float-parseable string is an epoch,
divided by 1000 when above `1e12`, and `utcfromtimestamp` raising out-of-range
is caught and yields `False`; an unparseable string yields `False`. -/
def is_today (today : Int) : Created → Bool
  | .absent => false
  | .val _ p =>
    match p with
    | .isoOk day => day == today
    | .epochNum q =>
      let ts := if (10 : ℚ) ^ 12 < q then q / 1000 else q
      if minEpoch ≤ ts ∧ ts < maxEpochB then utcDay ts == today else false
    | .unparsed => false

/-- The recency gate of `process_cycle` (lines 401-402): the item is kept unless
`FB_ONLY_TODAY and not is_today(created_at)`. -/
def recencyPass (onlyToday : Bool) (today : Int) (c : Created) : Bool :=
  !(onlyToday && !(is_today today c))

/-! ### Delivery payload (`send_job_to_miniapp`, lines 246-271) -/

/-- The JSON payload posted to `<base>/post` (lines 253-261). -/
structure Payload where
  source : String
  source_name : String
  external_id : String
  url : Option String
  text : String
  sender_username : Option String
  created_at : Option String
deriving DecidableEq

/-- Payload construction of `send_job_to_miniapp` (lines 253-261):
`external_id = post_url or created_at or _post_hash(text, None)`,
`source_name = group_url or "facebook_group"`. -/
def sendJobPayload (text : String) (post_url created_at group_url author_url : Option String) :
    Payload :=
  { source := "facebook"
    source_name := pyOrS group_url "facebook_group"
    external_id := pyOrS post_url (pyOrS created_at (post_hash text none))
    url := post_url
    text := text
    sender_username := author_url
    created_at := created_at }

/-! ### Source registry (`get_fb_groups`, lines 208-243) -/

/-- One entry of the registry's `groups` array, as read by the code:
`enabled` (any JSON scalar, tested for truthiness, defaulting to `True` when the
key is absent), `type` (string or absent), `group_url` / `group_id` (strings or
absent).  Field `ty` embeds the JSON key `"type"`. -/
structure RegGroup where
  enabled : Option PyVal
  ty : Option String
  group_url : Option String
  group_id : Option String
deriving DecidableEq

/-- An element of the `groups` array: the code skips non-dict elements
(line 225). -/
inductive RegItem
  | nonDict
  | group (g : RegGroup)
deriving DecidableEq

/-- The registry's JSON object body: `data.get("groups")`, `or []` applied
(line 224); `none` models an absent or falsy `groups` value. -/
structure RegData where
  groups : Option (List RegItem)
deriving DecidableEq

/-- Body of the registry HTTP response: not JSON at all, JSON but falsy
(`null`, `false`, `0`, `""`, `[]`, `{}` — all collapsed to `{}` by
`resp.json() or {}`), JSON truthy but not an object (a non-empty array, string,
number or `true` — on these `data.get` raises `AttributeError`), or a JSON
object. -/
inductive RegBody
  | notJson
  | jsonFalsy
  | jsonTruthyNonDict
  | jsonDict (d : RegData)
deriving DecidableEq

/-- A registry fetch outcome: network failure (any `requests` exception) or an
HTTP response with a status code and a body. -/
inductive RegResp
  | netFail
  | resp (status : Nat) (body : RegBody)
deriving DecidableEq

/-- Python exceptions that can escape the modelled fragment. -/
inductive PyExc
  | attributeError
deriving DecidableEq

/-- `not g.get("enabled", True)` (line 227): key absent defaults to `True`;
a present value is tested for truthiness. -/
def enabledOk (g : RegGroup) : Bool := (g.enabled.getD (PyVal.pBool true)).truthy

/-- `t = (g.get("type") or "").lower().strip()` (line 230). -/
def typeNorm (g : RegGroup) : String := stripChars (lowerStr (pyOrS g.ty ""))

/-- `if t and t != "facebook": continue` (lines 231-232), as the kept-condition. -/
def typeOk (g : RegGroup) : Bool := typeNorm g == "" || typeNorm g == "facebook"

/-- `raw = (g.get("group_url") or g.get("group_id") or "").strip()` (line 234). -/
def rawId (g : RegGroup) : String := stripChars (pyOrS g.group_url (pyOrS g.group_id ""))

/-- Loop body of `get_fb_groups` (lines 224-240) for one element of the
`groups` array: `none` when the element is skipped, otherwise the canonical
address appended to `urls`. -/
def entryAddr : RegItem → Option String
  | .nonDict => none
  | .group g =>
    if !(enabledOk g) then none
    else if !(typeOk g) then none
    else if rawId g == "" then none
    else if isPrefixL "http://".data (rawId g).data || isPrefixL "https://".data (rawId g).data then
      some (rawId g)
    else
      some ("https://www.facebook.com/groups/" ++ lstripAts (rawId g))

/-- `dict.fromkeys` de-duplication with an explicit seen-accumulator:
keeps the first occurrence of each string, in order. -/
def pyDedupAux (seen : List String) : List String → List String
  | [] => []
  | a :: l => if a ∈ seen then pyDedupAux seen l else a :: pyDedupAux (a :: seen) l

/-- `list(dict.fromkeys(urls))` (line 243): order-preserving de-duplication,
first occurrence wins. -/
def pyDedup (l : List String) : List String := pyDedupAux [] l

/-- `get_fb_groups` (lines 208-243).  The `try` block covers the request,
`raise_for_status()` (raises for status ≥ 400) and `resp.json()`; any exception
there yields `[]`.  `data.get("groups")` happens outside the `try`: a truthy
non-object JSON body makes it raise `AttributeError`, which propagates. -/
def get_fb_groups : RegResp → Except PyExc (List String)
  | .netFail => .ok []
  | .resp status body =>
    if 400 ≤ status then .ok []
    else
      match body with
      | .notJson => .ok []
      | .jsonFalsy => .ok []
      | .jsonTruthyNonDict => .error .attributeError
      | .jsonDict d => .ok (pyDedup ((d.groups.getD []).filterMap entryAddr))

/-! ### The polling cycle (`process_cycle`, lines 381-425)

The global mutable set `_seen_hashes` (line 87) is threaded explicitly as a
`List String` state.  `call_apify_for_group` returns a list on every path
(errors become `[]`), so it is abstracted as an oracle
`fetch : String → List RawItem`; the HTTP outcome of `send_job_to_miniapp`
(success = HTTP 200, anything else raises, caught at lines 422-423) is
abstracted as an oracle `deliver : Payload → Bool`.  Observable effects are
collected in an `Event` trace. -/

/-- One scraped item as `process_cycle` reads it: `item.get("text")`,
`item.get("url")`, `item.get("createdAt")`, and the author url extracted from
`item.get("user")` when that is a dict (lines 397-407). -/
structure Item where
  text : Option String
  url : Option String
  createdAt : Created
  author : Option String
deriving DecidableEq

/-- An element of the fetched item list; non-dict elements are skipped
(lines 394-395). -/
inductive RawItem
  | nonDict
  | post (i : Item)
deriving DecidableEq

/-- Observable effects of a cycle: a delivery attempt (with the HTTP outcome:
`true` = HTTP 200) and a liveness post to `/api/parser_status/<key>` (with the
outcome of that best-effort post). -/
inductive Event
  | deliverAttempt (p : Payload) (ok : Bool)
  | statusPost (key value : String) (ok : Bool)
deriving DecidableEq

/-- Configuration and ambient time of one cycle: `FB_ONLY_TODAY` (line 53),
the current day as seen by `is_today`, and `now_iso` (line 383). -/
structure CycleCfg where
  onlyToday : Bool
  today : Int
  now : String

/-- The fingerprint `process_cycle` computes for an item at line 409:
`_post_hash(text, post_url)` with `text = item.get("text") or ""`. -/
def cycleFingerprint (i : Item) : String := post_hash (i.text.getD "") i.url

/-- Per-item body of `process_cycle` (lines 393-423): skip non-dicts; apply the
recency filter; compute the fingerprint, skip if seen, otherwise record it in
the seen set (line 412, before delivery) and attempt delivery — the delivery
exception is caught, leaving the state unchanged. -/
def processItem (cfg : CycleCfg) (deliver : Payload → Bool) (groupUrl : String)
    (seen : List String) : RawItem → List String × List Event
  | .nonDict => (seen, [])
  | .post i =>
    if cfg.onlyToday && !(is_today cfg.today i.createdAt) then (seen, [])
    else
      let h := cycleFingerprint i
      if h ∈ seen then (seen, [])
      else
        let p := sendJobPayload (i.text.getD "") i.url (createdOpt i.createdAt)
          (some groupUrl) i.author
        (h :: seen, [Event.deliverAttempt p (deliver p)])

/-- The inner `for item in items` loop (lines 393-423). -/
def processItems (cfg : CycleCfg) (deliver : Payload → Bool) (groupUrl : String) :
    List String → List RawItem → List String × List Event
  | seen, [] => (seen, [])
  | seen, r :: rs =>
    let st := processItem cfg deliver groupUrl seen r
    let st2 := processItems cfg deliver groupUrl st.1 rs
    (st2.1, st.2 ++ st2.2)

/-- The outer `for group_url in group_urls` loop (lines 390-423). -/
def processGroups (cfg : CycleCfg) (fetch : String → List RawItem)
    (deliver : Payload → Bool) : List String → List String → List String × List Event
  | seen, [] => (seen, [])
  | seen, g :: gs =>
    let st := processItems cfg deliver g seen (fetch g)
    let st2 := processGroups cfg fetch deliver st.1 gs
    (st2.1, st.2 ++ st2.2)

/-- `process_cycle` (lines 381-425): list the sources; when the list is empty
post the liveness status and return (lines 385-388); otherwise run the loops and
post the liveness status at the end (line 425).  `post_status` (lines 165-176)
wraps everything in `try/except`, so its outcome `statusOk` is recorded in the
trace but can affect nothing else; an exception escaping `get_fb_groups`
propagates (the `Except.error` case). -/
def process_cycle (cfg : CycleCfg) (rr : RegResp) (fetch : String → List RawItem)
    (deliver : Payload → Bool) (statusOk : Bool) (seen : List String) :
    Except PyExc (List String × List Event) :=
  match get_fb_groups rr with
  | .error e => .error e
  | .ok groups =>
    if groups.isEmpty then
      .ok (seen, [Event.statusPost "fb_last_ok" cfg.now statusOk])
    else
      let st := processGroups cfg fetch deliver seen groups
      .ok (st.1, st.2 ++ [Event.statusPost "fb_last_ok" cfg.now statusOk])

/-- `true` exactly on liveness-status events. -/
def isStatusEvent : Event → Bool
  | .statusPost _ _ _ => true
  | _ => false

/-- Number of liveness-status events in a trace. -/
def countStatus (es : List Event) : Nat := (es.filter isStatusEvent).length

/-! ### Keyword policy (spec §4.5) -/

/-- Modelled from the spec: the keyword policy of the Relevance Filter (§4.5)
is absent from `src/fb_parser.py` — this variant filters by recency only.
Following the spec's words: the post is relevant iff its lowercased text
contains at least one of the lowercased keywords as a substring (mid-word
matches count), and an empty keyword set makes every post relevant. -/
def keywordRelevant (keywords : List String) (text : String) : Bool :=
  keywords.isEmpty ||
    keywords.any (fun k => containsSubL (lowerStr k).data (lowerStr text).data)

/-! ### Helper lemmas -/

theorem isPrefixL_iff (n h : List Char) : isPrefixL n h = true ↔ ∃ t, h = n ++ t := by
  induction n generalizing h with
  | nil => simp [isPrefixL]
  | cons a as ih =>
    cases h with
    | nil =>
      simp [isPrefixL]
    | cons b bs =>
      simp only [isPrefixL, Bool.and_eq_true, beq_iff_eq, ih, List.cons_append]
      constructor
      · rintro ⟨rfl, t, rfl⟩
        exact ⟨t, rfl⟩
      · rintro ⟨t, h⟩
        obtain ⟨h1, h2⟩ := List.cons.inj h
        exact ⟨h1.symm, t, h2⟩

theorem containsSubL_iff (n h : List Char) :
    containsSubL n h = true ↔ ∃ p q, h = p ++ n ++ q := by
  induction h with
  | nil =>
    simp only [containsSubL, List.isEmpty_iff]
    constructor
    · rintro rfl
      exact ⟨[], [], rfl⟩
    · rintro ⟨p, q, h⟩
      have hl := congrArg List.length h
      simp only [List.length_append, List.length_nil] at hl
      exact List.length_eq_zero.mp (by omega)
  | cons c t ih =>
    simp only [containsSubL, Bool.or_eq_true, isPrefixL_iff, ih]
    constructor
    · rintro (⟨s, hs⟩ | ⟨p, q, rfl⟩)
      · exact ⟨[], s, by simpa using hs⟩
      · exact ⟨c :: p, q, by simp⟩
    · rintro ⟨p, q, hpq⟩
      cases p with
      | nil =>
        exact Or.inl ⟨q, by simpa using hpq⟩
      | cons x xs =>
        obtain ⟨h1, h2⟩ := List.cons.inj (by simpa using hpq)
        exact Or.inr ⟨xs, q, by simpa using h2⟩

theorem mem_pyDedupAux (x : String) (l : List String) :
    ∀ seen, x ∈ pyDedupAux seen l ↔ x ∈ l ∧ x ∉ seen := by
  induction l with
  | nil => intro seen; simp [pyDedupAux]
  | cons a t ih =>
    intro seen
    by_cases ha : a ∈ seen
    · rw [pyDedupAux, if_pos ha, ih]
      simp only [List.mem_cons]
      constructor
      · rintro ⟨hx, hns⟩
        exact ⟨Or.inr hx, hns⟩
      · rintro ⟨hx | hx, hns⟩
        · exact absurd ha (hx ▸ hns)
        · exact ⟨hx, hns⟩
    · rw [pyDedupAux, if_neg ha]
      simp only [List.mem_cons, ih, not_or]
      constructor
      · rintro (rfl | ⟨hx, hna, hns⟩)
        · exact ⟨Or.inl rfl, ha⟩
        · exact ⟨Or.inr hx, hns⟩
      · rintro ⟨rfl | hx, hns⟩
        · exact Or.inl rfl
        · rcases eq_or_ne x a with rfl | hxa
          · exact Or.inl rfl
          · exact Or.inr ⟨hx, hxa, hns⟩

theorem nodup_pyDedupAux (l : List String) : ∀ seen, (pyDedupAux seen l).Nodup := by
  induction l with
  | nil => intro seen; simp [pyDedupAux]
  | cons a t ih =>
    intro seen
    by_cases ha : a ∈ seen
    · rw [pyDedupAux, if_pos ha]
      exact ih seen
    · rw [pyDedupAux, if_neg ha]
      refine List.Nodup.cons ?_ (ih (a :: seen))
      intro hmem
      exact ((mem_pyDedupAux a t (a :: seen)).mp hmem).2 (List.mem_cons_self a seen)

theorem sublist_pyDedupAux (l : List String) :
    ∀ seen, (pyDedupAux seen l).Sublist l := by
  induction l with
  | nil => intro seen; simp [pyDedupAux]
  | cons a t ih =>
    intro seen
    by_cases ha : a ∈ seen
    · rw [pyDedupAux, if_pos ha]
      exact (ih seen).cons a
    · rw [pyDedupAux, if_neg ha]
      exact (ih (a :: seen)).cons₂ a

theorem pyDedupAux_congr (l : List String) :
    ∀ s₁ s₂, (∀ y, y ∈ s₁ ↔ y ∈ s₂) → pyDedupAux s₁ l = pyDedupAux s₂ l := by
  induction l with
  | nil => intro s₁ s₂ _; rfl
  | cons a t ih =>
    intro s₁ s₂ hmem
    by_cases ha : a ∈ s₁
    · rw [pyDedupAux, pyDedupAux, if_pos ha, if_pos ((hmem a).mp ha)]
      exact ih s₁ s₂ hmem
    · rw [pyDedupAux, pyDedupAux, if_neg ha, if_neg (fun hc => ha ((hmem a).mpr hc))]
      refine congrArg (a :: ·) (ih (a :: s₁) (a :: s₂) fun y => ?_)
      simp only [List.mem_cons]
      exact or_congr Iff.rfl (hmem y)

theorem pyDedupAux_cons_seen (l : List String) :
    ∀ seen a, pyDedupAux (a :: seen) l = (pyDedupAux seen l).filter (fun y => y != a) := by
  induction l with
  | nil => intro seen a; rfl
  | cons x t ih =>
    intro seen a
    by_cases hxa : x = a
    · subst hxa
      by_cases hx : x ∈ seen
      · rw [pyDedupAux, if_pos (List.mem_cons_of_mem _ hx), pyDedupAux, if_pos hx]
        exact ih seen x
      · rw [pyDedupAux, if_pos (List.mem_cons_self x seen), pyDedupAux, if_neg hx,
          List.filter_cons_of_neg (by simp)]
        refine (List.filter_eq_self.mpr fun y hy => ?_).symm
        have hneq : y ≠ x := by
          have h2 := ((mem_pyDedupAux y t (x :: seen)).mp hy).2
          simp only [List.mem_cons, not_or] at h2
          exact h2.1
        simpa using hneq
    · by_cases hx : x ∈ seen
      · rw [pyDedupAux, if_pos (List.mem_cons_of_mem _ hx), pyDedupAux, if_pos hx]
        exact ih seen a
      · rw [pyDedupAux, if_neg (by simp [List.mem_cons, hxa, hx]), pyDedupAux, if_neg hx]
        rw [List.filter_cons_of_pos (by simpa using hxa)]
        refine congrArg (x :: ·) ?_
        rw [pyDedupAux_congr t (x :: a :: seen) (a :: x :: seen) (by intro y; simp; tauto)]
        exact ih (x :: seen) a

theorem nodup_pyDedup (l : List String) : (pyDedup l).Nodup := nodup_pyDedupAux l []

theorem sublist_pyDedup (l : List String) : (pyDedup l).Sublist l := sublist_pyDedupAux l []

theorem mem_pyDedup (x : String) (l : List String) : x ∈ pyDedup l ↔ x ∈ l := by
  rw [pyDedup, mem_pyDedupAux]
  simp

theorem pyDedup_cons (a : String) (l : List String) :
    pyDedup (a :: l) = a :: (pyDedup l).filter (fun y => y != a) := by
  rw [pyDedup, pyDedupAux, if_neg (List.not_mem_nil a), pyDedupAux_cons_seen]
  rfl

theorem countStatus_append (a b : List Event) :
    countStatus (a ++ b) = countStatus a + countStatus b := by
  simp [countStatus, List.filter_append]

theorem countStatus_processItem (cfg : CycleCfg) (d : Payload → Bool) (g : String)
    (seen : List String) (r : RawItem) : countStatus (processItem cfg d g seen r).2 = 0 := by
  cases r with
  | nonDict => rfl
  | post i =>
    simp only [processItem]
    split
    · rfl
    · split <;> rfl

theorem countStatus_processItems (cfg : CycleCfg) (d : Payload → Bool) (g : String)
    (rs : List RawItem) : ∀ seen, countStatus (processItems cfg d g seen rs).2 = 0 := by
  induction rs with
  | nil => intro seen; rfl
  | cons r rs ih =>
    intro seen
    simp only [processItems]
    rw [countStatus_append, countStatus_processItem, ih]

theorem countStatus_processGroups (cfg : CycleCfg) (fetch : String → List RawItem)
    (d : Payload → Bool) (gs : List String) :
    ∀ seen, countStatus (processGroups cfg fetch d seen gs).2 = 0 := by
  induction gs with
  | nil => intro seen; rfl
  | cons g gs ih =>
    intro seen
    simp only [processGroups]
    rw [countStatus_append, countStatus_processItems, ih]

theorem digest_ne_empty (s : String) : digest s ≠ "" := by
  intro h
  have hl := congrArg String.length h
  rw [digest, String.length_append] at hl
  have h2 : ("fp" : String).length = 2 := rfl
  have h0 : ("" : String).length = 0 := rfl
  omega

theorem pyOrS_ne_empty (a : Option String) (b : String) (hb : b ≠ "") : pyOrS a b ≠ "" := by
  cases a with
  | none => exact hb
  | some s =>
    rw [pyOrS]
    by_cases hs : s = ""
    · rw [if_pos (by simp [hs])]
      exact hb
    · rw [if_neg (by simpa using hs)]
      exact hs

/-! ### Claim theorems -/

/-- C2: for every normalized post and every configured keyword set, the post
passes the keyword policy of the relevance filter iff its lowercased text
contains at least one of the lowercased keywords as a substring (mid-word
matches count, since any decomposition `p ++ keyword ++ q` qualifies); with an
empty keyword set every post passes. -/
theorem fb_C2_keyword_filter (kws : List String) (t : String) :
    keywordRelevant kws t = true ↔
      (kws = [] ∨ ∃ k ∈ kws, ∃ p q, (lowerStr t).data = p ++ (lowerStr k).data ++ q) := by
  simp only [keywordRelevant, Bool.or_eq_true, List.isEmpty_iff, List.any_eq_true,
    containsSubL_iff]

/-- C6: the fingerprint computed by the cycle (line 409) is a pure function of
the item's `(text, url)` pair — two items agreeing on those two fields get the
same digest; no time, counter or randomness enters the computation (the
function has no other argument). -/
theorem fb_C6_fingerprint_deterministic (i₁ i₂ : Item)
    (ht : i₁.text = i₂.text) (hu : i₁.url = i₂.url) :
    cycleFingerprint i₁ = cycleFingerprint i₂ := by
  rw [cycleFingerprint, cycleFingerprint, ht, hu]

/-- C6 witness: two concrete items differing in timestamp and author but
agreeing on `(text, url)` produce the same fingerprint. -/
theorem fb_C6_witness :
    cycleFingerprint ⟨some "a", some "u", .absent, none⟩ =
      cycleFingerprint ⟨some "a", some "u", .val "2024-01-01" (.isoOk 19723), some "b"⟩ :=
  fb_C6_fingerprint_deterministic _ _ rfl rfl

/-- C5: `external_id` of the delivery payload (line 256) is chosen by strict
priority — the post url when present (truthy), else the timestamp string when
present, else the fingerprint (`_post_hash(text, None)`, which for an absent or
empty url equals the post's dedup fingerprint) — and is never the empty
string. -/
theorem fb_C5_external_id (text : String)
    (post_url created_at group_url author_url : Option String) :
    (∀ u, post_url = some u → u ≠ "" →
      (sendJobPayload text post_url created_at group_url author_url).external_id = u) ∧
    ((post_url = none ∨ post_url = some "") → ∀ c, created_at = some c → c ≠ "" →
      (sendJobPayload text post_url created_at group_url author_url).external_id = c) ∧
    ((post_url = none ∨ post_url = some "") → (created_at = none ∨ created_at = some "") →
      (sendJobPayload text post_url created_at group_url author_url).external_id =
        post_hash text post_url) ∧
    (sendJobPayload text post_url created_at group_url author_url).external_id ≠ "" := by
  refine ⟨?_, ?_, ?_, ?_⟩
  · rintro u rfl hu
    simp [sendJobPayload, pyOrS, hu]
  · rintro (rfl | rfl) c rfl hc <;> simp [sendJobPayload, pyOrS, hc]
  · rintro (rfl | rfl) (rfl | rfl) <;> simp [sendJobPayload, pyOrS, post_hash]
  · exact pyOrS_ne_empty _ _ (pyOrS_ne_empty _ _ (digest_ne_empty _))

/-- C5 witness: the three priority cases and non-emptiness at concrete
payloads. -/
theorem fb_C5_witness :
    (sendJobPayload "t" (some "u") (some "c") none none).external_id = "u" ∧
    (sendJobPayload "t" none (some "c") none none).external_id = "c" ∧
    (sendJobPayload "t" none none none none).external_id = post_hash "t" none ∧
    (sendJobPayload "t" none none none none).external_id ≠ "" :=
  ⟨(fb_C5_external_id "t" (some "u") (some "c") none none).1 "u" rfl (by decide),
   (fb_C5_external_id "t" none (some "c") none none).2.1 (Or.inl rfl) "c" rfl (by decide),
   (fb_C5_external_id "t" none none none none).2.2.1 (Or.inl rfl) (Or.inl rfl),
   (fb_C5_external_id "t" none none none none).2.2.2⟩

/-- C4: with the recency policy enabled a post passes iff its normalized
timestamp falls on the current day — an ISO timestamp by its parsed calendar
date, a nonnegative epoch by its UTC day, epochs above `10^12` first divided by
1000 (milliseconds); an unparseable or absent timestamp is rejected when the
policy is enabled and accepted when it is disabled, and an enabled-and-stale
item is dropped by the cycle before fingerprinting and delivery. -/
theorem fb_C4_recency (today day : Int) (s : String) (q : ℚ) (c : Created)
    (cfg : CycleCfg) (d : Payload → Bool) (g : String) (seen : List String) (i : Item) :
    (is_today today (.val s (.isoOk day)) = (day == today)) ∧
    (0 ≤ q → q ≤ 10 ^ 12 → minEpoch ≤ q → q < maxEpochB →
      is_today today (.val s (.epochNum q)) = (utcDay q == today)) ∧
    ((10 : ℚ) ^ 12 < q → q / 1000 < maxEpochB →
      is_today today (.val s (.epochNum q)) = (utcDay (q / 1000) == today)) ∧
    (is_today today (.val s .unparsed) = false) ∧
    (is_today today .absent = false) ∧
    (recencyPass false today c = true) ∧
    (recencyPass true today c = is_today today c) ∧
    (cfg.onlyToday = true → is_today cfg.today i.createdAt = false →
      processItem cfg d g seen (.post i) = (seen, [])) := by
  refine ⟨rfl, ?_, ?_, rfl, rfl, rfl, by simp [recencyPass], ?_⟩
  · intro h0 hle hmin hmax
    simp only [is_today]
    rw [if_neg (not_lt.mpr hle), if_pos ⟨hmin, hmax⟩]
  · intro hgt hmax
    have hmin : minEpoch ≤ q / 1000 := by
      rw [minEpoch]
      have : (0 : ℚ) < q := lt_trans (by norm_num) hgt
      have : (0 : ℚ) ≤ q / 1000 := by positivity
      linarith
    simp only [is_today]
    rw [if_pos hgt, if_pos ⟨hmin, hmax⟩]
  · intro hon hnot
    simp [processItem, hon, hnot]

/-- C4 witness: a seconds epoch and the same instant as a milliseconds epoch on
day 20000 both pass, an unparseable timestamp is rejected when the policy is
enabled and accepted when disabled, and an enabled-and-stale item is skipped by
the cycle step. -/
theorem fb_C4_witness :
    (is_today 20000 (.val "e" (.epochNum 1728000000)) = (utcDay 1728000000 == 20000)) ∧
    (is_today 20000 (.val "e" (.epochNum 1728000000000)) =
      (utcDay ((1728000000000 : ℚ) / 1000) == 20000)) ∧
    (is_today 20000 (.val "later" .unparsed) = false) ∧
    (recencyPass false 20000 (.val "later" .unparsed) = true) ∧
    (processItem ⟨true, 20000, "n"⟩ (fun _ => true) "g" []
      (.post ⟨some "x", none, .val "later" .unparsed, none⟩) = ([], [])) :=
  ⟨(fb_C4_recency 20000 0 "e" 1728000000 .absent ⟨true, 20000, "n"⟩ (fun _ => true) "g" []
      ⟨some "x", none, .val "later" .unparsed, none⟩).2.1
      (by norm_num) (by norm_num) (by rw [minEpoch]; norm_num) (by rw [maxEpochB]; norm_num),
   (fb_C4_recency 20000 0 "e" 1728000000000 .absent ⟨true, 20000, "n"⟩ (fun _ => true) "g" []
      ⟨some "x", none, .val "later" .unparsed, none⟩).2.2.1
      (by norm_num) (by rw [maxEpochB]; norm_num),
   (fb_C4_recency 20000 0 "later" 0 .absent ⟨true, 20000, "n"⟩ (fun _ => true) "g" []
      ⟨some "x", none, .val "later" .unparsed, none⟩).2.2.2.1,
   (fb_C4_recency 20000 0 "e" 0 (.val "later" .unparsed) ⟨true, 20000, "n"⟩ (fun _ => true) "g"
      [] ⟨some "x", none, .val "later" .unparsed, none⟩).2.2.2.2.2.1,
   (fb_C4_recency 20000 0 "e" 0 .absent ⟨true, 20000, "n"⟩ (fun _ => true) "g" []
      ⟨some "x", none, .val "later" .unparsed, none⟩).2.2.2.2.2.2.2 rfl rfl⟩

/-- C1 counterexample: at a concrete item, with a delivery oracle that always
fails (non-200, `DeliveryError`), the per-item step still changes the
deduplication set — the fingerprint is recorded despite the failed delivery,
refuting "if delivery fails ... the deduplication set is unchanged for that
post". -/
theorem fb_C1_counterexample :
    ((processItem ⟨false, 0, "now"⟩ (fun _ => false) "g" []
        (.post ⟨some "hi", some "u", .absent, none⟩)).1 ≠ []) ∧
    (processItem ⟨false, 0, "now"⟩ (fun _ => false) "g" []
        (.post ⟨some "hi", some "u", .absent, none⟩)).2 =
      [Event.deliverAttempt (sendJobPayload "hi" (some "u") none (some "g") none) false] := by
  constructor
  · decide
  · decide

/-- C1 amended: the fingerprint is recorded in the deduplication set *before*
delivery is attempted (line 412 precedes the `try` at line 414) and the
delivery exception is caught, so the resulting set does not depend on the
delivery outcome at all; an item whose fingerprint is already in the set is
skipped without any delivery attempt — a failed item is therefore NOT retried
on a later cycle of the same process. -/
theorem fb_C1_amended (cfg : CycleCfg) (d₁ d₂ : Payload → Bool) (g : String)
    (seen : List String) (r : RawItem) (i : Item) :
    ((processItem cfg d₁ g seen r).1 = (processItem cfg d₂ g seen r).1) ∧
    (cycleFingerprint i ∈ seen → processItem cfg d₁ g seen (.post i) = (seen, [])) := by
  constructor
  · cases r with
    | nonDict => rfl
    | post j =>
      simp only [processItem]
      split
      · rfl
      · split <;> rfl
  · intro hmem
    simp only [processItem]
    split_ifs <;> rfl

/-- C1 witness: at a concrete item whose fingerprint is already recorded, the
step leaves the state unchanged and attempts no delivery, and the state after
the step with a failing oracle equals the state with a succeeding oracle. -/
theorem fb_C1_witness :
    ((processItem ⟨false, 0, "now"⟩ (fun _ => false) "g"
        [cycleFingerprint ⟨some "hi", some "u", .absent, none⟩]
        (.post ⟨some "hi", some "u", .absent, none⟩)).1 =
      (processItem ⟨false, 0, "now"⟩ (fun _ => true) "g"
        [cycleFingerprint ⟨some "hi", some "u", .absent, none⟩]
        (.post ⟨some "hi", some "u", .absent, none⟩)).1) ∧
    (processItem ⟨false, 0, "now"⟩ (fun _ => false) "g"
        [cycleFingerprint ⟨some "hi", some "u", .absent, none⟩]
        (.post ⟨some "hi", some "u", .absent, none⟩) =
      ([cycleFingerprint ⟨some "hi", some "u", .absent, none⟩], [])) :=
  ⟨(fb_C1_amended ⟨false, 0, "now"⟩ (fun _ => false) (fun _ => true) "g"
      [cycleFingerprint ⟨some "hi", some "u", .absent, none⟩]
      (.post ⟨some "hi", some "u", .absent, none⟩)
      ⟨some "hi", some "u", .absent, none⟩).1,
   (fb_C1_amended ⟨false, 0, "now"⟩ (fun _ => false) (fun _ => true) "g"
      [cycleFingerprint ⟨some "hi", some "u", .absent, none⟩]
      (.post ⟨some "hi", some "u", .absent, none⟩)
      ⟨some "hi", some "u", .absent, none⟩).2 (List.mem_singleton.mpr rfl)⟩

/-- C3 counterexample: a concrete item with no text and no url whose timestamp
is today's date is NOT dropped — it passes the recency filter, is fingerprinted
and delivered with empty text and absent url, refuting both "never reaches
fingerprinting, deduplication, or delivery" and "every delivered post has a
non-empty text or a url". -/
theorem fb_C3_counterexample :
    (processItem ⟨true, 20000, "n"⟩ (fun _ => true) "g" []
        (.post ⟨none, none, .val "2024-10-04" (.isoOk 20000), none⟩)).2 =
      [Event.deliverAttempt (sendJobPayload "" none (some "2024-10-04") (some "g") none) true] ∧
    (sendJobPayload "" none (some "2024-10-04") (some "g") none).text = "" ∧
    (sendJobPayload "" none (some "2024-10-04") (some "g") none).url = none := by
  refine ⟨by decide, rfl, rfl⟩

/-- C3 amended: an item whose extracted text is empty and whose url is absent is
not dropped; whenever it passes the recency gate and its fingerprint is unseen
it is recorded and delivered with empty text and absent url, its `external_id`
falling back to the timestamp string or the fingerprint and hence staying
non-empty. -/
theorem fb_C3_amended (cfg : CycleCfg) (d : Payload → Bool) (g : String)
    (seen : List String) (i : Item)
    (ht : i.text.getD "" = "") (hu : i.url = none)
    (hf : (cfg.onlyToday && !(is_today cfg.today i.createdAt)) = false)
    (hs : post_hash "" none ∉ seen) :
    processItem cfg d g seen (.post i) =
      (post_hash "" none :: seen,
        [Event.deliverAttempt (sendJobPayload "" none (createdOpt i.createdAt) (some g) i.author)
          (d (sendJobPayload "" none (createdOpt i.createdAt) (some g) i.author))]) ∧
    (sendJobPayload "" none (createdOpt i.createdAt) (some g) i.author).text = "" ∧
    (sendJobPayload "" none (createdOpt i.createdAt) (some g) i.author).url = none ∧
    (sendJobPayload "" none (createdOpt i.createdAt) (some g) i.author).external_id ≠ "" := by
  have hfp : cycleFingerprint i = post_hash "" none := by
    rw [cycleFingerprint, ht, hu]
  refine ⟨?_, rfl, rfl, pyOrS_ne_empty _ _ (digest_ne_empty _)⟩
  simp only [processItem, hf, Bool.false_eq_true, if_false, hfp, ht, hu]
  rw [if_neg hs]

/-- C3 witness: a concrete no-text no-url item with the recency policy off and
an empty seen set is recorded and delivered with empty text and absent url. -/
theorem fb_C3_witness :
    processItem ⟨false, 0, "n"⟩ (fun _ => true) "g" [] (.post ⟨none, none, .absent, none⟩) =
      (post_hash "" none :: [],
        [Event.deliverAttempt (sendJobPayload "" none none (some "g") none) true]) ∧
    (sendJobPayload "" none none (some "g") none).external_id ≠ "" :=
  ⟨((fb_C3_amended ⟨false, 0, "n"⟩ (fun _ => true) "g" [] ⟨none, none, .absent, none⟩
      rfl rfl rfl (List.not_mem_nil _)).1),
   ((fb_C3_amended ⟨false, 0, "n"⟩ (fun _ => true) "g" [] ⟨none, none, .absent, none⟩
      rfl rfl rfl (List.not_mem_nil _)).2.2.2)⟩

/-- C7: `get_fb_groups` swallows network failures, HTTP errors (status ≥ 400)
and non-JSON bodies, returning `[]` — but a well-formed JSON body that is a
truthy non-object (e.g. the array `["x"]`) slips past the `try` block and makes
`data.get("groups")` raise `AttributeError` to the cycle orchestrator,
contradicting the no-raise intent of the surrounding handler. -/
theorem fb_C7_bug :
    get_fb_groups (.resp 200 .jsonTruthyNonDict) = .error .attributeError ∧
    get_fb_groups .netFail = .ok [] ∧
    get_fb_groups (.resp 500 (.jsonDict ⟨some []⟩)) = .ok [] ∧
    get_fb_groups (.resp 200 .notJson) = .ok [] ∧
    get_fb_groups (.resp 200 .jsonFalsy) = .ok [] :=
  ⟨rfl, rfl, rfl, rfl, rfl⟩

/-- C8: `get_fb_groups` drops a disabled source (a present falsy `enabled`),
drops a source whose normalized `type` is non-empty and differs from
`"facebook"`, turns a bare identifier (no `http(s)://` scheme) into
`https://www.facebook.com/groups/<id>` with leading `@` stripped, and returns
the canonical addresses de-duplicated: the result is duplicate-free, a
subsequence of the raw address list (order preserved), keeps exactly the
addresses that occur, and keeps the first occurrence of a repeated address
while filtering out its later repeats. -/
theorem fb_C8_source_listing (d : RegData) (g : RegGroup) (x a : String)
    (l : List String) :
    (∀ v, g.enabled = some v → v.truthy = false → entryAddr (.group g) = none) ∧
    (typeNorm g ≠ "" → typeNorm g ≠ "facebook" → entryAddr (.group g) = none) ∧
    (enabledOk g = true → typeOk g = true → rawId g ≠ "" →
      isPrefixL "http://".data (rawId g).data = false →
      isPrefixL "https://".data (rawId g).data = false →
      entryAddr (.group g) =
        some ("https://www.facebook.com/groups/" ++ lstripAts (rawId g))) ∧
    (get_fb_groups (.resp 200 (.jsonDict d)) =
      .ok (pyDedup ((d.groups.getD []).filterMap entryAddr))) ∧
    (pyDedup l).Nodup ∧
    (pyDedup l).Sublist l ∧
    (x ∈ pyDedup l ↔ x ∈ l) ∧
    (pyDedup (a :: l) = a :: (pyDedup l).filter (fun y => y != a)) := by
  refine ⟨?_, ?_, ?_, rfl, nodup_pyDedup l, sublist_pyDedup l, mem_pyDedup x l,
    pyDedup_cons a l⟩
  · rintro v hv htr
    rw [entryAddr, enabledOk, hv]
    simp [htr]
  · intro h1 h2
    rw [entryAddr]
    by_cases he : enabledOk g
    · rw [if_neg (by simp [he]), if_pos (by simp [typeOk, h1, h2])]
    · rw [if_pos (by simp [he])]
  · intro he hty hraw hp1 hp2
    rw [entryAddr, if_neg (by simp [he]), if_neg (by simp [hty]),
      if_neg (by simpa using hraw), if_neg (by simp [hp1, hp2])]

/-- C8 witness: a disabled entry and a Telegram-typed entry are dropped, a bare
`@`-prefixed id becomes a full group address, and first-wins de-duplication at
a concrete list. -/
theorem fb_C8_witness :
    entryAddr (.group ⟨some (.pBool false), none, some "http://x", none⟩) = none ∧
    entryAddr (.group ⟨none, some "Telegram", none, some "c"⟩) = none ∧
    entryAddr (.group ⟨none, some "facebook", none, some "@abc"⟩) =
      some ("https://www.facebook.com/groups/" ++
        lstripAts (rawId ⟨none, some "facebook", none, some "@abc"⟩)) ∧
    pyDedup ["a", "b", "a"] = "a" :: (pyDedup ["b", "a"]).filter (fun y => y != "a") :=
  ⟨(fb_C8_source_listing ⟨none⟩ ⟨some (.pBool false), none, some "http://x", none⟩ "x" "a"
      []).1 (.pBool false) rfl rfl,
   (fb_C8_source_listing ⟨none⟩ ⟨none, some "Telegram", none, some "c"⟩ "x" "a" []).2.1
      (by decide) (by decide),
   (fb_C8_source_listing ⟨none⟩ ⟨none, some "facebook", none, some "@abc"⟩ "x" "a" []).2.2.1
      (by decide) (by decide) (by decide) (by decide) (by decide),
   (fb_C8_source_listing ⟨none⟩ ⟨none, none, none, none⟩ "x" "a"
      ["b", "a"]).2.2.2.2.2.2.2⟩

/-- C9: whenever a cycle completes (the registry call did not raise), its event
trace ends with exactly one liveness post of `fb_last_ok` carrying the cycle's
`now` timestamp — also when the source list is empty — and the outcome of that
best-effort status post never influences the resulting state or the success of
the cycle. -/
theorem fb_C9_liveness (cfg : CycleCfg) (rr : RegResp) (fetch : String → List RawItem)
    (d : Payload → Bool) (ok : Bool) (seen : List String)
    (out : List String × List Event) :
    (process_cycle cfg rr fetch d ok seen = .ok out →
      ∃ pre, out.2 = pre ++ [Event.statusPost "fb_last_ok" cfg.now ok] ∧
        countStatus pre = 0) ∧
    (process_cycle cfg rr fetch d ok seen).map Prod.fst =
      (process_cycle cfg rr fetch d (!ok) seen).map Prod.fst := by
  constructor
  · intro h
    rw [process_cycle] at h
    cases hg : get_fb_groups rr with
    | error e =>
      rw [hg] at h
      exact absurd h (by simp)
    | ok groups =>
      rw [hg] at h
      dsimp only at h
      by_cases he : groups.isEmpty
      · rw [if_pos he] at h
        obtain rfl := (Except.ok.inj h).symm
        exact ⟨[], rfl, rfl⟩
      · rw [if_neg he] at h
        obtain rfl := (Except.ok.inj h).symm
        exact ⟨(processGroups cfg fetch d seen groups).2, rfl,
          countStatus_processGroups cfg fetch d groups seen⟩
  · rw [process_cycle, process_cycle]
    cases get_fb_groups rr with
    | error e => rfl
    | ok groups =>
      dsimp only
      by_cases he : groups.isEmpty
      · rw [if_pos he, if_pos he]
        rfl
      · rw [if_neg he, if_neg he]
        rfl

/-- C9 witness: a concrete empty-registry cycle produces a trace that is
exactly one liveness post. -/
theorem fb_C9_witness :
    ∃ pre, (([] : List String),
        [Event.statusPost "fb_last_ok" "now" true]).2 =
      pre ++ [Event.statusPost "fb_last_ok" "now" true] ∧ countStatus pre = 0 :=
  (fb_C9_liveness ⟨false, 0, "now"⟩ (.resp 200 .jsonFalsy) (fun _ => []) (fun _ => true)
    true [] ([], [Event.statusPost "fb_last_ok" "now" true])).1 rfl

/-- C10: a registry group entry with no `enabled` key at all is treated exactly
like one with `enabled: true` (the `g.get("enabled", True)` default) and, when
its other checks pass, yields an address; only an entry whose `enabled` value
is present and falsy is excluded as disabled. -/
theorem fb_C10_enabled_default (g : RegGroup) :
    (g.enabled = none →
      entryAddr (.group g) =
        entryAddr (.group { g with enabled := some (.pBool true) })) ∧
    (∀ v, g.enabled = some v → v.truthy = false → entryAddr (.group g) = none) ∧
    (g.enabled = none → typeOk g = true → rawId g ≠ "" →
      (entryAddr (.group g)).isSome = true) := by
  refine ⟨?_, ?_, ?_⟩
  · intro h
    have h1 : enabledOk g = true := by rw [enabledOk, h]; rfl
    have h2 : enabledOk { g with enabled := some (.pBool true) } = true := rfl
    conv_lhs => rw [entryAddr, if_neg (by simp [h1])]
    conv_rhs => rw [entryAddr, if_neg (by simp [h2])]
    rfl
  · rintro v hv htr
    rw [entryAddr, enabledOk, hv]
    simp [htr]
  · intro h hty hraw
    have h1 : enabledOk g = true := by rw [enabledOk, h]; rfl
    rw [entryAddr, if_neg (by simp [h1]), if_neg (by simp [hty]),
      if_neg (by simpa using hraw)]
    split <;> rfl

/-- C10 witness: a concrete entry lacking `enabled` equals its explicitly
enabled twin and yields an address; an `enabled: 0` entry is dropped. -/
theorem fb_C10_witness :
    entryAddr (.group ⟨none, none, some "https://u", none⟩) =
      entryAddr (.group ⟨some (.pBool true), none, some "https://u", none⟩) ∧
    entryAddr (.group ⟨some (.pInt 0), none, some "https://u", none⟩) = none ∧
    (entryAddr (.group ⟨none, none, some "https://u", none⟩)).isSome = true :=
  ⟨(fb_C10_enabled_default ⟨none, none, some "https://u", none⟩).1 rfl,
   (fb_C10_enabled_default ⟨some (.pInt 0), none, some "https://u", none⟩).2.1
      (.pInt 0) rfl rfl,
   (fb_C10_enabled_default ⟨none, none, some "https://u", none⟩).2.2 rfl (by decide)
      (by decide)⟩

end FbParser
